import Mathlib

/-!
Verification of the "2.5 Syndicate" backend (`backend/server.py`).

The backend is a FastAPI service over MongoDB.  We shallowly embed the
request handlers as pure Lean functions over explicit store state:

* a Mongo collection becomes a `List` of records;
* `find_one(filter)` becomes `List.find?` on the corresponding predicate;
* `update_one(filter, {"$set": ...})` becomes `updateFirst` (Mongo's
  `update_one` patches the first matching document and is a no-op when no
  document matches);
* `insert_one(doc)` appends to the list;
* raising `HTTPException(status, detail)` becomes `Except.error ⟨status, detail⟩`;
* external collaborators (bcrypt hashing, JWT signing, Stripe, Telegram,
  clocks, uuid generation) are passed in as explicit parameters or modelled
  as abstract data carried by the request, never re-implemented.

Python floats that only ever hold parsed decimal literals (odds, win rate)
are modelled as `ℚ`.
-/

namespace Syndicate

/-- `HTTPException(status_code, detail)`. -/
structure HttpErr where
  status_code : Nat
  detail : String
deriving DecidableEq

/-- A document of the `users` collection, as written by `register`. -/
structure User where
  id : String
  email : String
  name : String
  password_hash : String
  is_vip : Bool
  is_admin : Bool
  subscription_status : Option String
  subscription_id : Option String
  created_at : String
deriving DecidableEq

/-- A document of the `payment_transactions` collection, as written by
`create_checkout`. -/
structure Txn where
  id : String
  session_id : String
  user_id : String
  user_email : String
  amount : ℚ
  currency : String
  payment_status : String
  created_at : String
deriving DecidableEq

/-- A document of the `bets` collection.  `telegram_message_id` is only
present on documents created by the Telegram import (absent = `none`). -/
structure Bet where
  id : String
  home_team : String
  away_team : String
  league : String
  bet_type : String
  odds : ℚ
  stake : Int
  kick_off : String
  is_vip : Bool
  status : String
  home_score : Option Int
  away_score : Option Int
  created_at : String
  date : String
  telegram_message_id : Option Int
deriving DecidableEq

/-- The store state relevant to the payment flow. -/
structure DBState where
  users : List User
  payment_transactions : List Txn
deriving DecidableEq

/-- Mongo `update_one(filter, {"$set": ...})`: patch the first matching
document, no-op when none matches. -/
def updateFirst (p : α → Bool) (f : α → α) : List α → List α
  | [] => []
  | x :: xs => if p x then f x :: xs else x :: updateFirst p f xs

/-! ## Identity & credential store (`register`, `login`, token helpers) -/

/-- The payload of a session token: `{'user_id': ..., 'exp': ...}`. -/
structure JwtPayload where
  user_id : String
  exp : ℚ
deriving DecidableEq

/-- A session token.  The HMAC signature produced by `jwt.encode` with the
process secret is abstracted by the flag `sigValid`: a token signed with the
correct secret has `sigValid = true`, any tampered or foreign token has
`sigValid = false` (`jwt.decode` rejects it with `InvalidTokenError`). -/
structure Jwt where
  payload : JwtPayload
  sigValid : Bool
deriving DecidableEq

/-- `create_token`: payload binds the user id and a 30-day expiry. -/
def create_token (now : ℚ) (user_id : String) : Jwt :=
  { payload := { user_id := user_id, exp := now + 86400 * 30 }, sigValid := true }

/-- `UserResponse` as returned by the auth routes. -/
structure UserResponse where
  id : String
  email : String
  name : String
  is_vip : Bool
  is_admin : Bool
  subscription_status : Option String
  created_at : String
deriving DecidableEq

/-- `register`: duplicate-email check, then insert of the user document
whose `password_hash` field holds `hash_password(password)`.  The bcrypt
salted hash is abstracted as the parameter `hash`; `newId` is the fresh
`uuid4`, `now_iso` the creation timestamp, `now` the token clock. -/
def register (hash : String → String) (newId now_iso : String) (now : ℚ)
    (users : List User) (email password name : String) :
    Except HttpErr (List User × Jwt × UserResponse) :=
  if (users.find? (fun u => u.email == email)).isSome then
    .error ⟨400, "Email already registered"⟩
  else
    let user_doc : User :=
      { id := newId
        email := email
        name := name
        password_hash := hash password
        is_vip := false
        is_admin := false
        subscription_status := none
        subscription_id := none
        created_at := now_iso }
    .ok (users ++ [user_doc], create_token now newId,
      { id := newId
        email := email
        name := name
        is_vip := false
        is_admin := false
        subscription_status := none
        created_at := now_iso })

/-- `login`: look the user up by email, then check the password with
`verify_password` (bcrypt's `checkpw`, abstracted as the parameter
`verify`). -/
def login (verify : String → String → Bool) (now : ℚ) (users : List User)
    (email password : String) : Except HttpErr (Jwt × UserResponse) :=
  match users.find? (fun u => u.email == email) with
  | none => .error ⟨401, "Invalid credentials"⟩
  | some u =>
    if !(verify password u.password_hash) then
      .error ⟨401, "Invalid credentials"⟩
    else
      .ok (create_token now u.id,
        { id := u.id
          email := u.email
          name := u.name
          is_vip := u.is_vip
          is_admin := u.is_admin
          subscription_status := u.subscription_status
          created_at := u.created_at })

/-- `get_current_user`: decode the bearer token (`jwt.decode` checks the
signature and the `exp` claim against the clock), then look the user row up
in the `users` collection.  `token = none` models a missing/malformed
`Authorization` header. -/
def get_current_user (now : ℚ) (token : Option Jwt) (users : List User) :
    Except HttpErr User :=
  match token with
  | none => .error ⟨401, "Not authenticated"⟩
  | some t =>
    if !t.sigValid then .error ⟨401, "Invalid token"⟩
    else if t.payload.exp ≤ now then .error ⟨401, "Token expired"⟩
    else
      match users.find? (fun u => u.id == t.payload.user_id) with
      | none => .error ⟨401, "User not found"⟩
      | some u => .ok u

/-- `verify_admin` (`POST /admin/verify`): compare the supplied code with
the process-wide `ADMIN_CODE`, and on success set `is_admin` on the calling
user's row. -/
def verify_admin (adminCode code uid : String) (users : List User) :
    Except HttpErr (List User) :=
  if code ≠ adminCode then .error ⟨403, "Invalid admin code"⟩
  else .ok (updateFirst (fun u => u.id == uid)
    (fun u => { u with is_admin := true }) users)

/-! ## Subscription state machine (`get_checkout_status`, `stripe_webhook`) -/

/-- The `$set` applied to the user row when a paid event is applied. -/
def setVipFields (session_id : String) (u : User) : User :=
  { u with
    is_vip := true
    subscription_status := some "active"
    subscription_id := some session_id }

/-- The core of `GET /checkout/status/{session_id}`: `payStatus` is the
live `payment_status` reported by the Stripe collaborator, `uid` the
authenticated caller.  Applies the paid transition only when the stored
transaction exists and is not already `paid`. -/
def get_checkout_status (payStatus session_id uid : String) (s : DBState) :
    DBState :=
  if payStatus == "paid" then
    match s.payment_transactions.find? (fun t => t.session_id == session_id) with
    | some t =>
      if t.payment_status != "paid" then
        let newTxns :=
          updateFirst (fun t => t.session_id == session_id)
            (fun t => { t with payment_status := "paid" }) s.payment_transactions
        let newUsers :=
          updateFirst (fun u => u.id == uid) (setVipFields session_id) s.users
        { payment_transactions := newTxns, users := newUsers }
      else s
    | none => s
  else s

/-- The core of `POST /webhook/stripe` after signature verification:
`payStatus`, `session_id` and `metadata_user_id` come from the verified
webhook event.  Unconditionally `$set`s the transaction to `paid` and, when
the metadata carries a `user_id`, grants VIP to that user. -/
def stripe_webhook (payStatus session_id : String)
    (metadata_user_id : Option String) (s : DBState) : DBState :=
  if payStatus == "paid" then
    let newTxns :=
      updateFirst (fun t => t.session_id == session_id)
        (fun t => { t with payment_status := "paid" }) s.payment_transactions
    let s1 : DBState := { s with payment_transactions := newTxns }
    match metadata_user_id with
    | some uid =>
      let newUsers :=
        updateFirst (fun u => u.id == uid) (setVipFields session_id) s1.users
      { s1 with users := newUsers }
    | none => s1
  else s

/-! ## Content visibility engine (`/bets/today`, `/bets/vip/today`, `/stats`) -/

/-- `GET /bets/today`: free-tier upcoming picks — `date` equal to today's
UTC date bucket, `is_vip = false`, `status = "pending"`, sorted by
`kick_off` ascending, at most 100 results (`to_list(100)`). -/
def get_today_bets (today : String) (bets : List Bet) : List Bet :=
  (((bets.filter (fun b => b.date == today && !b.is_vip && b.status == "pending")).mergeSort
    (fun a b => a.kick_off ≤ b.kick_off)).take 100)

/-- `GET /bets/vip/today`: requires the caller's `is_vip` flag, then the
same query with `is_vip = true`. -/
def get_vip_today_bets (user : User) (today : String) (bets : List Bet) :
    Except HttpErr (List Bet) :=
  if !user.is_vip then .error ⟨403, "VIP subscription required"⟩
  else
    .ok (((bets.filter (fun b => b.date == today && b.is_vip && b.status == "pending")).mergeSort
      (fun a b => a.kick_off ≤ b.kick_off)).take 100)

/-- The response of `GET /stats`. -/
structure StatsResp where
  total_bets : Nat
  won_bets : Nat
  lost_bets : Nat
  win_rate : ℚ
deriving DecidableEq

/-- Python's `round(x)` on an exactly representable value: round half to
even (banker's rounding). -/
def roundHalfEven (q : ℚ) : ℤ :=
  let f := ⌊q⌋
  if q - f < 1 / 2 then f
  else if (1 : ℚ) / 2 < q - f then f + 1
  else if f % 2 = 0 then f else f + 1

/-- Python's `round(x, 1)`. -/
def pyRound1 (q : ℚ) : ℚ := (roundHalfEven (q * 10) : ℚ) / 10

/-- `GET /stats`: counts settled picks of **both** tiers (the filters do
not mention `is_vip`); win rate is `won/settled*100` rounded to one
decimal, or `0` when no pick is settled. -/
def get_stats (bets : List Bet) : StatsResp :=
  let total := bets.countP (fun b => b.status == "won" || b.status == "lost")
  let won := bets.countP (fun b => b.status == "won")
  { total_bets := total
    won_bets := won
    lost_bets := total - won
    win_rate := if 0 < total then pyRound1 ((won : ℚ) / (total : ℚ) * 100) else 0 }

/-! ## External feed import pipeline (`parse_telegram_message`, import)

String primitives mirroring the Python operations used by the parser.
Python's Unicode-aware `str.strip`, `str.lower`, `str.upper` and `\d`/`\s`
regex classes are modelled on their ASCII behaviour, which covers every
character class the parser's patterns and the channel messages use. -/

/-- `\s` / `str.strip` whitespace class (ASCII part). -/
def isPySpace (c : Char) : Bool :=
  c == ' ' || c == '\t' || c == '\n' || c == '\x0b' || c == '\x0c' || c == '\r'

/-- Python `str.strip()`. -/
def pyStrip (l : List Char) : List Char :=
  ((l.dropWhile isPySpace).reverse.dropWhile isPySpace).reverse

/-- ASCII `str.lower`. -/
def lowerA (c : Char) : Char :=
  if 65 ≤ c.toNat && c.toNat ≤ 90 then Char.ofNat (c.toNat + 32) else c

/-- ASCII `str.upper`. -/
def upperA (c : Char) : Char :=
  if 97 ≤ c.toNat && c.toNat ≤ 122 then Char.ofNat (c.toNat - 32) else c

/-- Python `needle in hay` on strings (contiguous substring). -/
def subList (needle : List Char) : List Char → Bool
  | [] => needle.isEmpty
  | c :: rest => needle.isPrefixOf (c :: rest) || subList needle rest

/-- `needle in line` for a string literal. -/
def hasSub (needle : String) (l : List Char) : Bool := subList needle.toList l

/-- `line.startswith(p)`. -/
def startsW (p : String) (l : List Char) : Bool := List.isPrefixOf p.toList l

/-- Python `text.split(c)` for a one-character separator (keeps empty
pieces, `"".split(c) = [""]`). -/
def splitChar (c : Char) : List Char → List (List Char)
  | [] => [[]]
  | x :: xs =>
    if x == c then [] :: splitChar c xs
    else
      match splitChar c xs with
      | [] => [[x]]
      | h :: t => (x :: h) :: t

/-- Helper for `splitByPre`: `skip` counts characters of an already
recognised separator still to consume. -/
def splitAux (n : Nat) (isSep : List Char → Bool) : Nat → List Char → List (List Char)
  | _, [] => [[]]
  | skip + 1, _ :: xs => splitAux n isSep skip xs
  | 0, x :: xs =>
    if n != 0 && isSep (x :: xs) then
      [] :: splitAux n isSep (n - 1) xs
    else
      match splitAux n isSep 0 xs with
      | [] => [[x]]
      | h :: t => (x :: h) :: t

/-- Python `str.split(sep)` / `re.split`: scan left to right, consuming a
separator of length `n` whenever `isSep` recognises one at the current
position (`isSep` only inspects a prefix of its argument). -/
def splitByPre (n : Nat) (isSep : List Char → Bool) (l : List Char) :
    List (List Char) :=
  splitAux n isSep 0 l

/-- Numeric value of a digit run. -/
def natFromDigits (ds : List Char) : Nat :=
  ds.foldl (fun acc c => acc * 10 + (c.toNat - 48)) 0

/-- `re.search(r'(\d+)', line)`: the maximal digit run starting at the
first digit. -/
def firstIntRun : List Char → Option (List Char)
  | [] => none
  | c :: rest =>
    if c.isDigit then some (c :: rest.takeWhile Char.isDigit)
    else firstIntRun rest

/-- The exact rational denoted by the decimal literal `ip.frDigits`
(`float("1.37") = decToRat 1 37 2`). -/
def decToRat (ip fr k : Nat) : ℚ := (ip : ℚ) + (fr : ℚ) / (10 ^ k : ℚ)

/-- `re.search(r'(\d+\.?\d*)', line)` followed by `float(...)`: at the
first digit, a digit run, optionally a dot and a further (possibly empty)
digit run. -/
def firstDecimal : List Char → Option ℚ
  | [] => none
  | c :: rest =>
    if c.isDigit then
      let ip := c :: rest.takeWhile Char.isDigit
      let r1 := rest.dropWhile Char.isDigit
      let fr :=
        match r1 with
        | '.' :: r2 => r2.takeWhile Char.isDigit
        | _ => []
      some (decToRat (natFromDigits ip) (natFromDigits fr) fr.length)
    else firstDecimal rest

/-- `re.search(r'(\d+)\s*[-:]\s*(\d+)', line)` at a fixed position
(the pattern's greedy runs never need to backtrack). -/
def scoreAt (l : List Char) : Option (Nat × Nat) :=
  let d1 := l.takeWhile Char.isDigit
  if d1.isEmpty then none
  else
    let r2 := (l.dropWhile Char.isDigit).dropWhile isPySpace
    match r2 with
    | c :: r3 =>
      if c == '-' || c == ':' then
        let d2 := (r3.dropWhile isPySpace).takeWhile Char.isDigit
        if d2.isEmpty then none else some (natFromDigits d1, natFromDigits d2)
      else none
    | [] => none

/-- `re.search` of the score pattern: earliest matching start position. -/
def firstScore : List Char → Option (Nat × Nat)
  | [] => none
  | c :: rest =>
    match scoreAt (c :: rest) with
    | some p => some p
    | none => firstScore rest

/-- The parser's mutable locals, with their initial values as defaults. -/
structure ParseSt where
  home_team : List Char := []
  away_team : List Char := []
  bet_type : String := ""
  stake : Nat := 5
  odds : ℚ := decToRat 1 80 2
  is_won : Bool := false
  home_score : Option Nat := none
  away_score : Option Nat := none

/-- The parsed pick returned by `parse_telegram_message`. -/
structure ParsedPick where
  home_team : String
  away_team : String
  bet_type : String
  stake : Nat
  odds : ℚ
  is_won : Bool
  home_score : Option Nat
  away_score : Option Nat
deriving DecidableEq

/-- One iteration of the `for line in lines` body of
`parse_telegram_message` (the line is already stripped). -/
def processLine (st : ParseSt) (line : List Char) : ParseSt :=
  let markerStart :=
    startsW "⚽" line || startsW "📈" line || startsW "📦" line ||
    startsW "⏰" line || startsW "✅" line || startsW "❌" line
  let st :=
    if hasSub " v " line && !markerStart then
      match splitByPre 3 (fun l => startsW " v " l) line with
      | [a, b] => { st with home_team := pyStrip a, away_team := pyStrip b }
      | _ => st
    else if hasSub " vs " (line.map lowerA) && !startsW "⚽" line then
      match splitByPre 4 (fun l => List.isPrefixOf (" vs ".toList) (l.map lowerA)) line with
      | [a, b] => { st with home_team := pyStrip a, away_team := pyStrip b }
      | _ => st
    else st
  let st :=
    if hasSub "⚽" line || hasSub "Over" line || hasSub "Under" line || hasSub "BTTS" line then
      let bt :=
        if hasSub "Over 2.5" line then "Over 2.5"
        else if hasSub "Under 2.5" line then "Under 2.5"
        else if hasSub "Over 1.5" line then "Over 1.5"
        else if hasSub "Under 1.5" line then "Under 1.5"
        else if hasSub "Over 3.5" line then "Over 3.5"
        else if hasSub "BTTS" (line.map upperA) then
          if hasSub "Yes" line then "BTTS Yes" else "BTTS No"
        else st.bet_type
      let w := if hasSub "✅" line then true else st.is_won
      { st with bet_type := bt, is_won := w }
    else st
  let st :=
    if hasSub "Points" line || hasSub "📈" line then
      match firstIntRun line with
      | some ds =>
        let s0 := natFromDigits ds
        { st with stake := if s0 > 10 then 10 else s0 }
      | none => st
    else st
  let st :=
    if hasSub "Odds" line || hasSub "📦" line then
      match firstDecimal line with
      | some q => { st with odds := q }
      | none => st
    else st
  let st :=
    if hasSub "Result" line then
      if hasSub "✅" line || hasSub "Full House" line || hasSub "Won" line || hasSub "Win" line then
        { st with is_won := true }
      else if hasSub "❌" line || hasSub "Lost" line || hasSub "Loss" line then
        { st with is_won := false }
      else st
    else st
  match firstScore line with
  | some (h, a) =>
    if hasSub "Score" line || hasSub "FT" line || hasSub "Result" line then
      { st with home_score := some h, away_score := some a }
    else st
  | none => st

/-- `parse_telegram_message`: strip the text, split on newlines, run the
line rules, and return the pick only when participants and bet type were
all found. -/
def parse_telegram_message (text : String) : Option ParsedPick :=
  let lines := splitChar '\n' (pyStrip text.toList)
  let st := lines.foldl (fun s l => processLine s (pyStrip l)) {}
  if !st.home_team.isEmpty && !st.away_team.isEmpty && st.bet_type != "" then
    some { home_team := st.home_team.asString
           away_team := st.away_team.asString
           bet_type := st.bet_type
           stake := st.stake
           odds := st.odds
           is_won := st.is_won
           home_score := st.home_score
           away_score := st.away_score }
  else none

/-- A fetched channel post (`channel_post`/`message` of a Telegram
`getUpdates` result); `post.get("text")` returning `None` is modelled as
the empty string. -/
structure TgPost where
  message_id : Int
  date : Nat
  text : String
deriving DecidableEq

/-- A post that `import_from_telegram` will turn into a pick: it has text
and the text parses. -/
def importable (p : TgPost) : Bool :=
  p.text != "" && (parse_telegram_message p.text).isSome

/-- `find_one({"telegram_message_id": m})` is truthy. -/
def hasMsgId (bets : List Bet) (m : Int) : Bool :=
  (bets.find? (fun b => b.telegram_message_id == some m)).isSome

/-- The bet document inserted for a parsed post.  `idOf k` is the fresh
`uuid4` for the `k`-th insert, `isoOf`/`dateOf` render the post timestamp
(`datetime.fromtimestamp(...).isoformat()` / `.strftime("%Y-%m-%d")`),
`now` is the `created_at` clock. -/
def mkImportBet (idOf : Nat → String) (isoOf dateOf : Nat → String)
    (now : String) (k : Nat) (post : TgPost) (p : ParsedPick) : Bet :=
  { id := idOf k
    home_team := p.home_team
    away_team := p.away_team
    league := "Imported"
    bet_type := p.bet_type
    odds := p.odds
    stake := (p.stake : Int)
    kick_off := isoOf post.date
    is_vip := false
    status := if p.is_won then "won" else "lost"
    home_score := p.home_score.map (fun n => (n : Int))
    away_score := p.away_score.map (fun n => (n : Int))
    created_at := now
    date := dateOf post.date
    telegram_message_id := some post.message_id }

/-- One iteration of the import loop: skip posts without text or that do
not parse; for a parsed post, dedup on `telegram_message_id`, else insert.
The accumulator is `(bets, imported_count, skipped_count)`. -/
def importStep (idOf : Nat → String) (isoOf dateOf : Nat → String)
    (now : String) (acc : List Bet × Nat × Nat) (post : TgPost) :
    List Bet × Nat × Nat :=
  if post.text != "" then
    match parse_telegram_message post.text with
    | some parsed =>
      if hasMsgId acc.1 post.message_id then
        (acc.1, acc.2.1, acc.2.2 + 1)
      else
        (acc.1 ++ [mkImportBet idOf isoOf dateOf now acc.2.1 post parsed],
          acc.2.1 + 1, acc.2.2)
    | none => acc
  else acc

/-- `POST /admin/telegram/import` over an already fetched batch of posts:
returns the new `bets` collection and the `(imported, skipped)` counters of
the response. -/
def import_from_telegram (idOf : Nat → String) (isoOf dateOf : Nat → String)
    (now : String) (posts : List TgPost) (bets : List Bet) :
    List Bet × Nat × Nat :=
  posts.foldl (importStep idOf isoOf dateOf now) (bets, 0, 0)

/-! ## Concrete sample data used by the witnesses -/

/-- A registered non-VIP user. -/
def uAlice : User :=
  { id := "u1"
    email := "alice@example.com"
    name := "Alice"
    password_hash := "h-pw1"
    is_vip := false
    is_admin := false
    subscription_status := none
    subscription_id := none
    created_at := "2025-01-01T00:00:00" }

/-- A second registered user. -/
def uBob : User :=
  { id := "u2"
    email := "bob@example.com"
    name := "Bob"
    password_hash := "h-pw2"
    is_vip := false
    is_admin := false
    subscription_status := none
    subscription_id := none
    created_at := "2025-01-01T00:00:00" }

/-- A pending checkout transaction for `uAlice`. -/
def txnDemo : Txn :=
  { id := "t1"
    session_id := "sess1"
    user_id := "u1"
    user_email := "alice@example.com"
    amount := 999 / 100
    currency := "gbp"
    payment_status := "pending"
    created_at := "2025-01-01T00:00:00" }

/-- Store state right after `uAlice` started a checkout. -/
def demoState : DBState :=
  { users := [uAlice, uBob], payment_transactions := [txnDemo] }

/-- A well-signed session token for user `u1` expiring at time 100. -/
def tokenDemo : Jwt :=
  { payload := { user_id := "u1", exp := 100 }, sigValid := true }

/-- A sample pick scheduled "today", free tier, pending. -/
def betFree : Bet :=
  { id := "b1"
    home_team := "Marseille"
    away_team := "Rennes"
    league := "Ligue 1"
    bet_type := "Over 2.5"
    odds := 137 / 100
    stake := 5
    kick_off := "2025-01-02T18:00:00"
    is_vip := false
    status := "pending"
    home_score := none
    away_score := none
    created_at := "2025-01-01T00:00:00"
    date := "2025-01-02"
    telegram_message_id := none }

/-- A sample VIP pick scheduled the same day. -/
def betVip : Bet :=
  { betFree with id := "b2", is_vip := true, kick_off := "2025-01-02T20:00:00" }

/-- A settled pick with the given status and tier. -/
def settledBet (i : String) (st : String) (vip : Bool) : Bet :=
  { betFree with id := i, status := st, is_vip := vip }

/-- 3 won picks and 1 lost pick (mixed tiers), plus a pending one. -/
def demoSettled : List Bet :=
  [settledBet "w1" "won" false, settledBet "w2" "won" true,
    settledBet "w3" "won" false, settledBet "l1" "lost" true, betFree]

/-- A fetched batch: one parseable channel post and one that does not
parse. -/
def demoPosts : List TgPost :=
  [{ message_id := 11, date := 1735776000,
     text := "Marseille v Rennes\n⚽ Over 2.5 Goals ✅\n📈 Points - 5\n📦 Odds - 1.37" },
   { message_id := 12, date := 1735776100, text := "Good morning punters" }]

/-! ## Supporting lemmas -/

theorem updateFirst_of_find_none (p : α → Bool) (f : α → α) (l : List α)
    (h : l.find? p = none) : updateFirst p f l = l := by
  induction l with
  | nil => rfl
  | cons x xs ih =>
    rw [List.find?_cons] at h
    by_cases hx : p x
    · simp [hx] at h
    · simp only [updateFirst, if_neg hx]
      simp only [hx, Bool.false_eq_true, reduceIte] at h
      rw [ih h]

theorem find_updateFirst (p : α → Bool) (f : α → α) (l : List α)
    (hp : ∀ x, p x = true → p (f x) = true) :
    (updateFirst p f l).find? p = (l.find? p).map f := by
  induction l with
  | nil => rfl
  | cons x xs ih =>
    by_cases hx : p x
    · simp [updateFirst, hx, List.find?_cons, hp x hx]
    · simp only [updateFirst, if_neg hx, List.find?_cons]
      simp only [hx, Bool.false_eq_true, reduceIte]
      exact ih

theorem updateFirst_of_find_fix (p : α → Bool) (f : α → α) (l : List α) (x : α)
    (h : l.find? p = some x) (hfix : f x = x) : updateFirst p f l = l := by
  induction l with
  | nil => simp at h
  | cons y ys ih =>
    rw [List.find?_cons] at h
    by_cases hy : p y
    · simp only [hy, reduceIte, Option.some.injEq] at h
      subst h
      simp [updateFirst, hy, hfix]
    · simp only [hy, Bool.false_eq_true, reduceIte] at h
      simp [updateFirst, hy, ih h]

theorem updateFirst_idem (p : α → Bool) (f : α → α) (l : List α)
    (hp : ∀ x, p x = true → p (f x) = true) (hf : ∀ x, f (f x) = f x) :
    updateFirst p f (updateFirst p f l) = updateFirst p f l := by
  cases h : l.find? p with
  | none =>
    rw [updateFirst_of_find_none p f l h, updateFirst_of_find_none p f l h]
  | some x =>
    apply updateFirst_of_find_fix p f _ (f x)
    · rw [find_updateFirst p f l hp, h]
      rfl
    · exact hf x

theorem filter_updateFirst (p : α → Bool) (f : α → α) (l : List α)
    (hp : ∀ x, p (f x) = p x) :
    (updateFirst p f l).filter (fun x => !(p x)) = l.filter (fun x => !(p x)) := by
  induction l with
  | nil => rfl
  | cons x xs ih =>
    by_cases hx : p x
    · simp [updateFirst, hx, List.filter_cons, hp]
    · simp [updateFirst, hx, List.filter_cons, ih]

/-! ## Claim theorems -/

/-- C4: `parse_telegram_message` applied to the four-line text
"Marseille v Rennes\n⚽ Over 2.5 Goals ✅\n📈 Points - 5\n📦 Odds - 1.37"
returns home participant "Marseille", away participant "Rennes", bet type
"Over 2.5", stake 5, odds 1.37, won indicator true, and null scores. -/
theorem parse_message_sample_pick :
    parse_telegram_message
        "Marseille v Rennes\n⚽ Over 2.5 Goals ✅\n📈 Points - 5\n📦 Odds - 1.37" =
      some { home_team := "Marseille"
             away_team := "Rennes"
             bet_type := "Over 2.5"
             stake := 5
             odds := 137 / 100
             is_won := true
             home_score := none
             away_score := none } := by
  have h : decToRat 1 37 2 = 137 / 100 := by norm_num [decToRat]
  rw [← h]
  rfl

/-- C3: `login` fails with the identical error — status 401 and message
"Invalid credentials" — both when no user carries the given email and when
the user exists but the password check fails, so the two causes are
indistinguishable to the caller. -/
theorem login_failures_indistinguishable (verify : String → String → Bool)
    (now : ℚ) (users : List User) (email pw : String) :
    (users.find? (fun u => u.email == email) = none →
      login verify now users email pw = .error ⟨401, "Invalid credentials"⟩) ∧
    (∀ u, users.find? (fun u => u.email == email) = some u →
      verify pw u.password_hash = false →
      login verify now users email pw = .error ⟨401, "Invalid credentials"⟩) := by
  constructor
  · intro h
    simp [login, h]
  · intro u hu hv
    simp [login, hu, hv]

/-- Witness for C3: a store with only Alice; an unknown email and a wrong
password for Alice produce the very same error value. -/
theorem login_failures_indistinguishable_witness :
    login (fun p h => p == h) 0 [uAlice] "nobody@example.com" "pw" =
      .error ⟨401, "Invalid credentials"⟩ ∧
    login (fun p h => p == h) 0 [uAlice] "alice@example.com" "wrong" =
      .error ⟨401, "Invalid credentials"⟩ :=
  ⟨(login_failures_indistinguishable (fun p h => p == h) 0 [uAlice]
      "nobody@example.com" "pw").1 (by rfl),
   (login_failures_indistinguishable (fun p h => p == h) 0 [uAlice]
      "alice@example.com" "wrong").2 uAlice (by rfl) (by rfl)⟩

/-- C7: `verify_admin` with the correct elevation code succeeds and sets
`is_admin` on the calling user's row while every other user's row is left
unchanged; with any other code it fails with 403 "Invalid admin code" (and,
returning an error, changes no state). -/
theorem verify_admin_sets_only_caller (adminCode uid : String) (users : List User) :
    (∀ code, code ≠ adminCode →
      verify_admin adminCode code uid users = .error ⟨403, "Invalid admin code"⟩) ∧
    (∃ users2, verify_admin adminCode adminCode uid users = .ok users2 ∧
      (∀ u, users.find? (fun v => v.id == uid) = some u →
        users2.find? (fun v => v.id == uid) = some { u with is_admin := true }) ∧
      users2.filter (fun v => !(v.id == uid)) =
        users.filter (fun v => !(v.id == uid))) := by
  refine ⟨fun code hc => by simp [verify_admin, hc], ?_⟩
  refine ⟨updateFirst (fun v => v.id == uid) (fun u => { u with is_admin := true }) users,
    by simp [verify_admin], ?_, ?_⟩
  · intro u hu
    rw [find_updateFirst (fun v => v.id == uid)
      (fun u => { u with is_admin := true }) users (fun x hx => hx), hu]
    rfl
  · exact filter_updateFirst (fun v => v.id == uid)
      (fun u => { u with is_admin := true }) users (fun x => rfl)

/-- Witness for C7: with store `[uAlice, uBob]`, elevating `u1` with the
correct code flags only Alice's row; the wrong code yields 403. -/
theorem verify_admin_sets_only_caller_witness :
    verify_admin "syndicate2024" "letmein" "u1" [uAlice, uBob] =
      .error ⟨403, "Invalid admin code"⟩ ∧
    (∃ users2, verify_admin "syndicate2024" "syndicate2024" "u1" [uAlice, uBob] = .ok users2 ∧
      (∀ u, [uAlice, uBob].find? (fun v => v.id == "u1") = some u →
        users2.find? (fun v => v.id == "u1") = some { u with is_admin := true }) ∧
      users2.filter (fun v => !(v.id == "u1")) =
        [uAlice, uBob].filter (fun v => !(v.id == "u1"))) :=
  ⟨(verify_admin_sets_only_caller "syndicate2024" "u1" [uAlice, uBob]).1 "letmein"
      (by decide),
   (verify_admin_sets_only_caller "syndicate2024" "u1" [uAlice, uBob]).2⟩

/-- C8: registering an email that is already present in the store (exact
string match) fails with 400 "Email already registered" and inserts
nothing; a successful `register` appends exactly one user document whose
`password_hash` field is the salted hash of the secret — given that the
hash differs from the secret, the plaintext is not what is stored. -/
theorem register_duplicate_and_hash_only (hash : String → String)
    (newId now_iso : String) (now : ℚ) (users : List User)
    (email password nm : String) :
    ((∃ u ∈ users, u.email = email) →
      register hash newId now_iso now users email password nm =
        .error ⟨400, "Email already registered"⟩) ∧
    ((∀ u ∈ users, u.email ≠ email) →
      register hash newId now_iso now users email password nm =
        .ok (users ++
          [{ id := newId
             email := email
             name := nm
             password_hash := hash password
             is_vip := false
             is_admin := false
             subscription_status := none
             subscription_id := none
             created_at := now_iso }],
          create_token now newId,
          { id := newId
            email := email
            name := nm
            is_vip := false
            is_admin := false
            subscription_status := none
            created_at := now_iso })) ∧
    (hash password ≠ password →
      (({ id := newId
          email := email
          name := nm
          password_hash := hash password
          is_vip := false
          is_admin := false
          subscription_status := none
          subscription_id := none
          created_at := now_iso } : User)).password_hash ≠ password) := by
  refine ⟨?_, ?_, fun h => h⟩
  · intro ⟨u, hu, he⟩
    have : (users.find? (fun v => v.email == email)).isSome := by
      rw [List.find?_isSome]
      exact ⟨u, hu, by simp [he]⟩
    simp [register, this]
  · intro h
    have : users.find? (fun v => v.email == email) = none := by
      rw [List.find?_eq_none]
      intro u hu
      simp [h u hu]
    simp [register, this]

/-- Witness for C8: re-registering Alice's email fails with the duplicate
error; registering a fresh email appends the hash-carrying document. -/
theorem register_duplicate_and_hash_only_witness :
    register (fun p => "hash-" ++ p) "u9" "2025-02-01" 0 [uAlice]
        "alice@example.com" "pw" "Alice2" =
      .error ⟨400, "Email already registered"⟩ ∧
    register (fun p => "hash-" ++ p) "u9" "2025-02-01" 0 [uAlice]
        "carol@example.com" "pw" "Carol" =
      .ok ([uAlice] ++
        [{ id := "u9"
           email := "carol@example.com"
           name := "Carol"
           password_hash := "hash-pw"
           is_vip := false
           is_admin := false
           subscription_status := none
           subscription_id := none
           created_at := "2025-02-01" }],
        create_token 0 "u9",
        { id := "u9"
          email := "carol@example.com"
          name := "Carol"
          is_vip := false
          is_admin := false
          subscription_status := none
          created_at := "2025-02-01" }) :=
  ⟨(register_duplicate_and_hash_only (fun p => "hash-" ++ p) "u9" "2025-02-01" 0
      [uAlice] "alice@example.com" "pw" "Alice2").1 ⟨uAlice, by decide, by decide⟩,
   (register_duplicate_and_hash_only (fun p => "hash-" ++ p) "u9" "2025-02-01" 0
      [uAlice] "carol@example.com" "pw" "Carol").2.1 (by decide)⟩

/-- C9 counterexample: a token whose signature verifies and whose expiry
is in the future is rejected by `get_current_user` with 401 "User not
found" when the store holds no row for its `user_id`, so session
resolution does depend on persisted user state. -/
theorem resolveSession_reads_store :
    tokenDemo.sigValid = true ∧ (0 : ℚ) < tokenDemo.payload.exp ∧
    get_current_user 0 (some tokenDemo) [] = .error ⟨401, "User not found"⟩ := by
  refine ⟨rfl, by norm_num [tokenDemo], ?_⟩
  have h : ¬(tokenDemo.payload.exp ≤ (0 : ℚ)) := by norm_num [tokenDemo]
  simp [get_current_user, tokenDemo, h]

/-- C9 amended: for a token whose signature verifies and whose expiry is
in the future, the outcome of `get_current_user` is determined by the
signature/expiry checks together with one store lookup of the token's
`user_id`: it succeeds with the stored row when one exists and fails with
401 "User not found" otherwise. -/
theorem resolveSession_signature_expiry_lookup (now : ℚ) (t : Jwt)
    (users : List User) (hs : t.sigValid = true) (he : now < t.payload.exp) :
    get_current_user now (some t) users =
      match users.find? (fun u => u.id == t.payload.user_id) with
      | some u => .ok u
      | none => .error ⟨401, "User not found"⟩ := by
  rcases hfind : users.find? (fun u => u.id == t.payload.user_id) with _ | u <;>
    simp [get_current_user, hs, not_le.mpr he, hfind]

/-- Witness for C9's amended theorem: `tokenDemo` against a store holding
`u1` resolves to Alice's row. -/
theorem resolveSession_signature_expiry_lookup_witness :
    get_current_user 0 (some tokenDemo) [uAlice] = .ok uAlice :=
  (resolveSession_signature_expiry_lookup 0 tokenDemo [uAlice] rfl
    (by norm_num [tokenDemo])).trans (by rfl)

/-- C10: a verified `paid` webhook event whose metadata carries a
`user_id` grants VIP (`is_vip = true`, `subscription_status = "active"`,
`subscription_id` = the session id) to that user even when no transaction
row with that session id exists: the transaction collection is untouched
and the user row is updated. -/
theorem webhook_grants_vip_without_txn (s : DBState) (sid uid : String) (u : User)
    (ht : s.payment_transactions.find? (fun t => t.session_id == sid) = none)
    (hu : s.users.find? (fun v => v.id == uid) = some u) :
    (stripe_webhook "paid" sid (some uid) s).payment_transactions =
      s.payment_transactions ∧
    (stripe_webhook "paid" sid (some uid) s).users.find? (fun v => v.id == uid) =
      some { u with
        is_vip := true
        subscription_status := some "active"
        subscription_id := some sid } := by
  have htx : updateFirst (fun t => t.session_id == sid)
      (fun t => { t with payment_status := "paid" }) s.payment_transactions =
      s.payment_transactions :=
    updateFirst_of_find_none _ _ _ ht
  constructor
  · simp [stripe_webhook, htx]
  · simp only [stripe_webhook, beq_self_eq_true, reduceIte, htx]
    rw [find_updateFirst (fun v => v.id == uid) (setVipFields sid) s.users
      (fun x hx => hx), hu]
    rfl

/-- Witness for C10: webhook for an unknown session `sessX` still grants
VIP to `u1`. -/
theorem webhook_grants_vip_without_txn_witness :
    (stripe_webhook "paid" "sessX" (some "u1") demoState).payment_transactions =
      demoState.payment_transactions ∧
    (stripe_webhook "paid" "sessX" (some "u1") demoState).users.find?
        (fun v => v.id == "u1") =
      some { uAlice with
        is_vip := true
        subscription_status := some "active"
        subscription_id := some "sessX" } :=
  webhook_grants_vip_without_txn demoState "sessX" "u1" uAlice (by rfl) (by rfl)

/-- C1: starting from a state holding a not-yet-paid transaction for the
session and a row for the user, applying a verified `paid` event twice by
any combination of the poll handler and the webhook handler sets the
user's `is_vip` flag after the first application, and the second
application leaves the state exactly as the first left it (no error is
possible: both embedded handlers are total). -/
theorem paid_event_applied_once (s : DBState) (sid uid : String) (t0 : Txn) (u0 : User)
    (ht : s.payment_transactions.find? (fun t => t.session_id == sid) = some t0)
    (hpend : t0.payment_status ≠ "paid")
    (hu : s.users.find? (fun v => v.id == uid) = some u0) :
    ∀ f ∈ [get_checkout_status "paid" sid uid, stripe_webhook "paid" sid (some uid)],
    ∀ g ∈ [get_checkout_status "paid" sid uid, stripe_webhook "paid" sid (some uid)],
      ((f s).users.find? (fun v => v.id == uid)).map User.is_vip = some true ∧
      g (f s) = f s := by
  have hb : (t0.payment_status != "paid") = true := by
    simp [bne_iff_ne, hpend]
  have hfirst : ∀ f ∈ [get_checkout_status "paid" sid uid,
      stripe_webhook "paid" sid (some uid)],
      f s = ({ users := updateFirst (fun v => v.id == uid) (setVipFields sid) s.users
               payment_transactions :=
                 updateFirst (fun t => t.session_id == sid)
                   (fun t => { t with payment_status := "paid" })
                   s.payment_transactions } : DBState) := by
    intro f hf
    rcases List.mem_cons.mp hf with rfl | hf
    · simp [get_checkout_status, ht, hb]
    · rcases List.mem_cons.mp hf with rfl | hf
      · simp [stripe_webhook]
      · simp at hf
  have hvip : ((updateFirst (fun v => v.id == uid) (setVipFields sid) s.users).find?
      (fun v => v.id == uid)).map User.is_vip = some true := by
    rw [find_updateFirst (fun v => v.id == uid) (setVipFields sid) s.users
      (fun x hx => hx), hu]
    rfl
  have hsecond : ∀ g ∈ [get_checkout_status "paid" sid uid,
      stripe_webhook "paid" sid (some uid)],
      g ({ users := updateFirst (fun v => v.id == uid) (setVipFields sid) s.users
           payment_transactions :=
             updateFirst (fun t => t.session_id == sid)
               (fun t => { t with payment_status := "paid" })
               s.payment_transactions } : DBState) =
        ({ users := updateFirst (fun v => v.id == uid) (setVipFields sid) s.users
           payment_transactions :=
             updateFirst (fun t => t.session_id == sid)
               (fun t => { t with payment_status := "paid" })
               s.payment_transactions } : DBState) := by
    have hfind : (updateFirst (fun t => t.session_id == sid)
        (fun t => { t with payment_status := "paid" })
        s.payment_transactions).find? (fun t => t.session_id == sid) =
        some { t0 with payment_status := "paid" } := by
      rw [find_updateFirst (fun t => t.session_id == sid)
        (fun t => { t with payment_status := "paid" }) s.payment_transactions
        (fun x hx => hx), ht]
      rfl
    have htxn2 : updateFirst (fun t => t.session_id == sid)
        (fun t => { t with payment_status := "paid" })
        (updateFirst (fun t => t.session_id == sid)
          (fun t => { t with payment_status := "paid" }) s.payment_transactions) =
        updateFirst (fun t => t.session_id == sid)
          (fun t => { t with payment_status := "paid" }) s.payment_transactions :=
      updateFirst_idem (fun t => t.session_id == sid)
        (fun t => { t with payment_status := "paid" }) s.payment_transactions
        (fun x hx => hx) (fun x => rfl)
    have husers2 : updateFirst (fun v => v.id == uid) (setVipFields sid)
        (updateFirst (fun v => v.id == uid) (setVipFields sid) s.users) =
        updateFirst (fun v => v.id == uid) (setVipFields sid) s.users :=
      updateFirst_idem (fun v => v.id == uid) (setVipFields sid) s.users
        (fun x hx => hx) (fun x => rfl)
    intro g hg
    rcases List.mem_cons.mp hg with rfl | hg
    · simp [get_checkout_status, hfind]
    · rcases List.mem_cons.mp hg with rfl | hg
      · simp [stripe_webhook, htxn2, husers2]
      · simp at hg
  intro f hf g hg
  rw [hfirst f hf]
  exact ⟨hvip, hsecond g hg⟩

/-- Witness for C1: in `demoState` (pending transaction `sess1` of `u1`),
a poll applies the paid event and a subsequent webhook for the same
session changes nothing. -/
theorem paid_event_applied_once_witness :
    ((get_checkout_status "paid" "sess1" "u1" demoState).users.find?
        (fun v => v.id == "u1")).map User.is_vip = some true ∧
    stripe_webhook "paid" "sess1" (some "u1")
        (get_checkout_status "paid" "sess1" "u1" demoState) =
      get_checkout_status "paid" "sess1" "u1" demoState :=
  paid_event_applied_once demoState "sess1" "u1" txnDemo uAlice (by rfl)
    (by decide) (by rfl) (get_checkout_status "paid" "sess1" "u1")
    (List.mem_cons_self _ _) (stripe_webhook "paid" "sess1" (some "u1"))
    (List.mem_cons_of_mem _ (List.mem_cons_self _ _))

/-- C5: a pick with `is_vip = false`, `status = "pending"` and today's
date bucket appears in the free upcoming listing and never in the VIP
upcoming listing; the free listing is sorted by `kick_off` ascending and
holds at most 100 picks.  (The inclusion needs the stated cap: at most 100
matching picks.) -/
theorem free_pick_listed_free_not_vip (today : String) (bets : List Bet) (p : Bet)
    (hmem : p ∈ bets) (hdate : p.date = today) (hvip : p.is_vip = false)
    (hst : p.status = "pending")
    (hcard : (bets.filter
      (fun b => b.date == today && !b.is_vip && b.status == "pending")).length ≤ 100) :
    p ∈ get_today_bets today bets ∧
    (∀ u res, get_vip_today_bets u today bets = .ok res → p ∉ res) ∧
    List.Pairwise (fun a b : Bet => a.kick_off ≤ b.kick_off)
      (get_today_bets today bets) ∧
    (get_today_bets today bets).length ≤ 100 := by
  have hperm := List.mergeSort_perm
    (bets.filter (fun b => b.date == today && !b.is_vip && b.status == "pending"))
    (fun a b => a.kick_off ≤ b.kick_off)
  have hlen : ((bets.filter
      (fun b => b.date == today && !b.is_vip && b.status == "pending")).mergeSort
      (fun a b => a.kick_off ≤ b.kick_off)).length ≤ 100 := by
    rw [hperm.length_eq]
    exact hcard
  refine ⟨?_, ?_, ?_, ?_⟩
  · unfold get_today_bets
    rw [List.take_of_length_le hlen]
    refine hperm.mem_iff.mpr ?_
    rw [List.mem_filter]
    exact ⟨hmem, by simp [hdate, hvip, hst]⟩
  · intro u res hres hpres
    unfold get_vip_today_bets at hres
    by_cases hv : u.is_vip
    · simp only [hv, Bool.not_true, Bool.false_eq_true, reduceIte,
        Except.ok.injEq] at hres
      subst hres
      have h1 : p ∈ (bets.filter
          (fun b => b.date == today && b.is_vip && b.status == "pending")).mergeSort
          (fun a b => a.kick_off ≤ b.kick_off) :=
        List.take_subset _ _ hpres
      have h2 := (List.mergeSort_perm
        (bets.filter (fun b => b.date == today && b.is_vip && b.status == "pending"))
        (fun a b => a.kick_off ≤ b.kick_off)).mem_iff.mp h1
      have h3 := (List.mem_filter.mp h2).2
      rw [hvip] at h3
      simp at h3
    · simp [hv] at hres
  · have htrans : ∀ a b c : Bet, decide (a.kick_off ≤ b.kick_off) = true →
        decide (b.kick_off ≤ c.kick_off) = true →
        decide (a.kick_off ≤ c.kick_off) = true := by
      intro a b c hab hbc
      rw [decide_eq_true_eq] at *
      exact le_trans hab hbc
    have htotal : ∀ a b : Bet,
        (decide (a.kick_off ≤ b.kick_off) || decide (b.kick_off ≤ a.kick_off)) = true := by
      intro a b
      rw [Bool.or_eq_true, decide_eq_true_eq, decide_eq_true_eq]
      exact le_total a.kick_off b.kick_off
    have hpw := List.sorted_mergeSort htrans htotal
      (bets.filter (fun b => b.date == today && !b.is_vip && b.status == "pending"))
    have hpw2 : List.Pairwise (fun a b : Bet => a.kick_off ≤ b.kick_off)
        ((bets.filter
          (fun b => b.date == today && !b.is_vip && b.status == "pending")).mergeSort
          (fun a b => a.kick_off ≤ b.kick_off)) :=
      hpw.imp (fun h => decide_eq_true_eq.mp h)
    exact List.Pairwise.sublist (List.take_sublist 100 _) hpw2
  · unfold get_today_bets
    exact List.length_take_le 100 _

/-- Witness for C5: `betFree` on 2025-01-02 against a store also holding
the VIP pick `betVip`. -/
theorem free_pick_listed_free_not_vip_witness :
    betFree ∈ get_today_bets "2025-01-02" [betVip, betFree] ∧
    (∀ u res, get_vip_today_bets u "2025-01-02" [betVip, betFree] = .ok res →
      betFree ∉ res) ∧
    List.Pairwise (fun a b : Bet => a.kick_off ≤ b.kick_off)
      (get_today_bets "2025-01-02" [betVip, betFree]) ∧
    (get_today_bets "2025-01-02" [betVip, betFree]).length ≤ 100 :=
  free_pick_listed_free_not_vip "2025-01-02" [betVip, betFree] betFree
    (List.mem_cons_of_mem _ (List.mem_cons_self _ _)) rfl rfl rfl (by decide)

/-- Python's `round(·, 1)` is the identity on integral values. -/
theorem pyRound1_intCast (n : ℤ) : pyRound1 ((n : ℚ)) = (n : ℚ) := by
  have h10 : ((n : ℚ)) * 10 = (((10 * n : ℤ) : ℚ)) := by
    push_cast
    ring
  unfold pyRound1 roundHalfEven
  rw [h10, Int.floor_intCast]
  rw [if_pos (by norm_num)]
  push_cast
  ring

/-- `count_documents({"status": {"$in": ["won", "lost"]}})` counts exactly
the settled picks. -/
theorem countP_settled_eq (bets : List Bet) :
    bets.countP (fun b => b.status == "won" || b.status == "lost") =
      (bets.filter (fun b => b.status = "won" ∨ b.status = "lost")).length := by
  rw [← List.countP_eq_length_filter]
  apply List.countP_congr
  intro b _
  by_cases h1 : b.status = "won" <;> by_cases h2 : b.status = "lost" <;>
    simp [h1, h2]

/-- `count_documents({"status": "won"})` counts exactly the won picks. -/
theorem countP_won_eq (bets : List Bet) :
    bets.countP (fun b => b.status == "won") =
      (bets.filter (fun b => b.status = "won")).length := by
  rw [← List.countP_eq_length_filter]
  apply List.countP_congr
  intro b _
  by_cases h1 : b.status = "won" <;> simp [h1]

/-- C6: `get_stats` aggregates settled picks of both tiers; the win rate
is 0 with no settled pick, 75.0 with 3 won and 1 lost (mixed tiers in
`demoSettled`), and in general `won/settled*100` rounded to one decimal
place. -/
theorem stats_win_rate_all_tiers :
    (get_stats []).win_rate = 0 ∧
    (get_stats demoSettled).win_rate = 75 ∧
    (∀ bets : List Bet,
      0 < (bets.filter (fun b => b.status = "won" ∨ b.status = "lost")).length →
      (get_stats bets).win_rate =
        pyRound1 ((((bets.filter (fun b => b.status = "won")).length : ℚ) /
          ((bets.filter (fun b => b.status = "won" ∨ b.status = "lost")).length : ℚ))
          * 100)) := by
  refine ⟨rfl, ?_, ?_⟩
  · have h1 : demoSettled.countP
        (fun b => b.status == "won" || b.status == "lost") = 4 := rfl
    have h2 : demoSettled.countP (fun b => b.status == "won") = 3 := rfl
    have h3 : (get_stats demoSettled).win_rate =
        pyRound1 ((((3 : ℕ) : ℚ) / ((4 : ℕ) : ℚ)) * 100) := by
      simp [get_stats, h1, h2]
    rw [h3]
    have h75 : (((3 : ℕ) : ℚ) / ((4 : ℕ) : ℚ)) * 100 = ((75 : ℤ) : ℚ) := by
      norm_num
    rw [h75, pyRound1_intCast]
    norm_num
  · intro bets hpos
    have hc1 := countP_settled_eq bets
    have hc2 := countP_won_eq bets
    simp only [get_stats]
    rw [hc1, hc2, if_pos hpos]

/-- Witness for C6's general formula at the sample store. -/
theorem stats_win_rate_all_tiers_witness :
    0 < (demoSettled.filter (fun b => b.status = "won" ∨ b.status = "lost")).length ∧
    (get_stats demoSettled).win_rate =
      pyRound1 ((((demoSettled.filter (fun b => b.status = "won")).length : ℚ) /
        ((demoSettled.filter
          (fun b => b.status = "won" ∨ b.status = "lost")).length : ℚ)) * 100) :=
  ⟨by decide, stats_win_rate_all_tiers.2.2 demoSettled (by decide)⟩

theorem hasMsgId_iff (bets : List Bet) (m : Int) :
    hasMsgId bets m = true ↔ ∃ b ∈ bets, b.telegram_message_id = some m := by
  unfold hasMsgId
  rw [List.find?_isSome]
  constructor
  · rintro ⟨b, hb, he⟩
    exact ⟨b, hb, by simpa using he⟩
  · rintro ⟨b, hb, he⟩
    exact ⟨b, hb, by simpa using he⟩

theorem importStep_not_importable (idOf isoOf dateOf : Nat → String)
    (now : String) (acc : List Bet × Nat × Nat) (q : TgPost)
    (h : importable q = false) :
    importStep idOf isoOf dateOf now acc q = acc := by
  unfold importStep
  by_cases htxt : (q.text != "") = true
  · cases hp : parse_telegram_message q.text with
    | none => simp [htxt, hp]
    | some parsed =>
      exfalso
      unfold importable at h
      rw [htxt, hp] at h
      simp at h
  · rw [Bool.not_eq_true] at htxt
    simp [htxt]

theorem importStep_skip (idOf isoOf dateOf : Nat → String) (now : String)
    (acc : List Bet × Nat × Nat) (q : TgPost) (parsed : ParsedPick)
    (htxt : (q.text != "") = true)
    (hp : parse_telegram_message q.text = some parsed)
    (hdup : hasMsgId acc.1 q.message_id = true) :
    importStep idOf isoOf dateOf now acc q = (acc.1, acc.2.1, acc.2.2 + 1) := by
  unfold importStep
  simp [htxt, hp, hdup]

theorem importStep_insert (idOf isoOf dateOf : Nat → String) (now : String)
    (acc : List Bet × Nat × Nat) (q : TgPost) (parsed : ParsedPick)
    (htxt : (q.text != "") = true)
    (hp : parse_telegram_message q.text = some parsed)
    (hnew : hasMsgId acc.1 q.message_id = false) :
    importStep idOf isoOf dateOf now acc q =
      (acc.1 ++ [mkImportBet idOf isoOf dateOf now acc.2.1 q parsed],
        acc.2.1 + 1, acc.2.2) := by
  unfold importStep
  simp [htxt, hp, hnew]

theorem import_run_fresh (idOf isoOf dateOf : Nat → String) (now : String) :
    ∀ (posts : List TgPost) (bets : List Bet) (i k : Nat),
      (∀ p ∈ posts, importable p = true → hasMsgId bets p.message_id = false) →
      (posts.map (fun p => p.message_id)).Nodup →
      ∃ nb : List Bet,
        posts.foldl (importStep idOf isoOf dateOf now) (bets, i, k) =
          (bets ++ nb, i + posts.countP importable, k) ∧
        (∀ p ∈ posts, importable p = true →
          hasMsgId (bets ++ nb) p.message_id = true) := by
  intro posts
  induction posts with
  | nil =>
    intro bets i k _ _
    exact ⟨[], by simp, by simp⟩
  | cons q rest ih =>
    intro bets i k hfresh hnodup
    rw [List.map_cons, List.nodup_cons] at hnodup
    obtain ⟨hqnot, hndrest⟩ := hnodup
    rw [List.foldl_cons]
    cases himp : importable q with
    | false =>
      rw [importStep_not_importable idOf isoOf dateOf now (bets, i, k) q himp]
      obtain ⟨nb, hrun, hall⟩ := ih bets i k
        (fun p hp h2 => hfresh p (List.mem_cons_of_mem _ hp) h2) hndrest
      refine ⟨nb, ?_, ?_⟩
      · rw [hrun, List.countP_cons_of_neg]
        simp [himp]
      · intro p hp h2
        rcases List.mem_cons.mp hp with rfl | hp
        · rw [himp] at h2
          cases h2
        · exact hall p hp h2
    | true =>
      have htxt : (q.text != "") = true := by
        unfold importable at himp
        exact (Bool.and_eq_true_iff.mp himp).1
      have hsome : (parse_telegram_message q.text).isSome = true := by
        unfold importable at himp
        exact (Bool.and_eq_true_iff.mp himp).2
      obtain ⟨parsed, hparse⟩ := Option.isSome_iff_exists.mp hsome
      have hnew : hasMsgId bets q.message_id = false :=
        hfresh q (List.mem_cons_self _ _) himp
      rw [importStep_insert idOf isoOf dateOf now (bets, i, k) q parsed htxt
        hparse hnew]
      have hfresh2 : ∀ p ∈ rest, importable p = true →
          hasMsgId (bets ++ [mkImportBet idOf isoOf dateOf now i q parsed])
            p.message_id = false := by
        intro p hp h2
        rw [Bool.eq_false_iff]
        intro hcontra
        rw [hasMsgId_iff] at hcontra
        obtain ⟨b, hb, hbid⟩ := hcontra
        rcases List.mem_append.mp hb with hb | hb
        · have : hasMsgId bets p.message_id = true :=
            (hasMsgId_iff bets p.message_id).mpr ⟨b, hb, hbid⟩
          rw [hfresh p (List.mem_cons_of_mem _ hp) h2] at this
          cases this
        · rcases List.mem_singleton.mp hb with rfl
          have : q.message_id = p.message_id := by
            simpa [mkImportBet] using hbid
          exact hqnot (this ▸ List.mem_map_of_mem (fun r => r.message_id) hp)
      obtain ⟨nb, hrun, hall⟩ :=
        ih (bets ++ [mkImportBet idOf isoOf dateOf now i q parsed]) (i + 1) k
          hfresh2 hndrest
      refine ⟨mkImportBet idOf isoOf dateOf now i q parsed :: nb, ?_, ?_⟩
      · rw [hrun, List.countP_cons_of_pos _ _ himp]
        simp only [List.append_assoc, List.singleton_append]
        refine congrArg (fun n =>
          (bets ++ mkImportBet idOf isoOf dateOf now i q parsed :: nb, n, k)) ?_
        omega
      · intro p hp h2
        rcases List.mem_cons.mp hp with rfl | hp
        · rw [hasMsgId_iff]
          exact ⟨mkImportBet idOf isoOf dateOf now i p parsed,
            List.mem_append.mpr (Or.inr (List.mem_cons_self _ _)), rfl⟩
        · have h3 := hall p hp h2
          simpa only [List.append_assoc, List.singleton_append] using h3

theorem import_run_dup (idOf isoOf dateOf : Nat → String) (now : String) :
    ∀ (posts : List TgPost) (bets : List Bet) (i k : Nat),
      (∀ p ∈ posts, importable p = true → hasMsgId bets p.message_id = true) →
      posts.foldl (importStep idOf isoOf dateOf now) (bets, i, k) =
        (bets, i, k + posts.countP importable) := by
  intro posts
  induction posts with
  | nil =>
    intro bets i k _
    simp
  | cons q rest ih =>
    intro bets i k hdup
    rw [List.foldl_cons]
    cases himp : importable q with
    | false =>
      rw [importStep_not_importable idOf isoOf dateOf now (bets, i, k) q himp,
        ih bets i k (fun p hp h2 => hdup p (List.mem_cons_of_mem _ hp) h2),
        List.countP_cons_of_neg]
      simp [himp]
    | true =>
      have htxt : (q.text != "") = true := by
        unfold importable at himp
        exact (Bool.and_eq_true_iff.mp himp).1
      have hsome : (parse_telegram_message q.text).isSome = true := by
        unfold importable at himp
        exact (Bool.and_eq_true_iff.mp himp).2
      obtain ⟨parsed, hparse⟩ := Option.isSome_iff_exists.mp hsome
      rw [importStep_skip idOf isoOf dateOf now (bets, i, k) q parsed htxt
        hparse (hdup q (List.mem_cons_self _ _) himp),
        ih bets i (k + 1) (fun p hp h2 => hdup p (List.mem_cons_of_mem _ hp) h2),
        List.countP_cons_of_pos _ _ himp]
      refine congrArg (fun n => (bets, i, n)) ?_
      omega

/-- C2: over a fixed fetched batch with pairwise distinct message ids none
of which is already carried by a stored pick, `import_from_telegram` run
twice returns `(imported, skipped) = (N, 0)` the first time and `(0, N)`
the second time, where `N` counts the batch's parseable posts; the second
run inserts nothing (the pick list is unchanged). -/
theorem import_batch_idempotent (idOf isoOf dateOf : Nat → String)
    (now1 now2 : String) (posts : List TgPost) (bets : List Bet)
    (hfresh : ∀ p ∈ posts, importable p = true →
      hasMsgId bets p.message_id = false)
    (hnodup : (posts.map (fun p => p.message_id)).Nodup) :
    ∃ bets1,
      import_from_telegram idOf isoOf dateOf now1 posts bets =
        (bets1, posts.countP importable, 0) ∧
      import_from_telegram idOf isoOf dateOf now2 posts bets1 =
        (bets1, 0, posts.countP importable) := by
  obtain ⟨nb, hrun, hall⟩ :=
    import_run_fresh idOf isoOf dateOf now1 posts bets 0 0 hfresh hnodup
  refine ⟨bets ++ nb, ?_, ?_⟩
  · unfold import_from_telegram
    rw [hrun]
    simp
  · unfold import_from_telegram
    rw [import_run_dup idOf isoOf dateOf now2 posts (bets ++ nb) 0 0 hall]
    simp

/-- Witness for C2: the two-post demo batch (one parseable message, one
plain-chat message) against an empty pick store; `N = 1`. -/
theorem import_batch_idempotent_witness :
    (∃ bets1,
      import_from_telegram (fun _ => "uuid-1") (fun _ => "2025-01-02T00:00:00")
          (fun _ => "2025-01-02") "2025-01-03T09:00:00" demoPosts [] =
        (bets1, demoPosts.countP importable, 0) ∧
      import_from_telegram (fun _ => "uuid-1") (fun _ => "2025-01-02T00:00:00")
          (fun _ => "2025-01-02") "2025-01-03T09:05:00" demoPosts bets1 =
        (bets1, 0, demoPosts.countP importable)) ∧
    demoPosts.countP importable = 1 :=
  ⟨import_batch_idempotent (fun _ => "uuid-1") (fun _ => "2025-01-02T00:00:00")
      (fun _ => "2025-01-02") "2025-01-03T09:00:00" "2025-01-03T09:05:00"
      demoPosts [] (by decide) (by decide), by rfl⟩

end Syndicate
